import Mathlib

/-!
Verification of the parsing core of the x-nucleo-lpm01a-gui repository.

The development shallowly embeds, faithfully to the Python source:
  - src/core/data_parser.py : ParsedData, AsciiParser, BinaryParser
  - src/core/protocol.py    : Commands.acqtime
  - src/core/serial_worker.py : the SerialWorker state machine loop

Modelling conventions:
  - Python floats are modelled as rationals; all values produced by the two
    decoders are dyadic or decimal scalings of small integers.
  - Python bytes are naturals below 256; Python str values are lists of Char.
  - Python code that can raise an uncaught exception is modelled with Option:
    a result of none means the call raised.
  - Loops that walk a buffer are written with an explicit iteration budget
    (first argument) initialised to the buffer length; every iteration of the
    Python loop consumes at least one element, so the budget never runs out
    when initialised that way, and the budget-exhausted arm is unreachable
    from the entry points below.
  - Character classes used by the source (str.strip, regex digit, word and
    whitespace classes) are restricted to their ASCII behaviour, which is the
    only range the device protocol produces.
-/

set_option maxRecDepth 4000

/-- Python Unicode whitespace test, restricted to the code points the
protocol can carry (space, tab, newline, carriage return, vertical tab,
form feed, the separator controls 28-31, next-line 133, no-break space 160). -/
def isPyWs (c : Char) : Bool :=
  decide (c.toNat = 32 ∨ c.toNat = 9 ∨ c.toNat = 10 ∨ c.toNat = 13 ∨
          c.toNat = 11 ∨ c.toNat = 12 ∨ c.toNat = 28 ∨ c.toNat = 29 ∨
          c.toNat = 30 ∨ c.toNat = 31 ∨ c.toNat = 133 ∨ c.toNat = 160)

/-- ASCII decimal digit test (the regex class \d and str.isdigit over the
characters the device emits). -/
def pyIsDigit (c : Char) : Bool :=
  decide (48 ≤ c.toNat ∧ c.toNat ≤ 57)

/-- Regex word-character class \w restricted to ASCII: letters, digits, underscore. -/
def isWordChar (c : Char) : Bool :=
  decide ((48 ≤ c.toNat ∧ c.toNat ≤ 57) ∨ (65 ≤ c.toNat ∧ c.toNat ≤ 90) ∨
          (97 ≤ c.toNat ∧ c.toNat ≤ 122) ∨ c.toNat = 95)

/-- Python str.strip with no argument: drop leading and trailing whitespace. -/
def pyStrip (cs : List Char) : List Char :=
  ((cs.dropWhile isPyWs).reverse.dropWhile isPyWs).reverse

/-- Python bytes.decode with ascii codec and replacement: bytes below 128
decode to themselves, anything else to the replacement character U+FFFD. -/
def decodeAsciiReplace (bs : List Nat) : List Char :=
  bs.map fun b => if b < 128 then Char.ofNat b else '�'

/-- Python str.encode with ascii codec and replacement: code points below 128
encode to themselves, anything else to a question mark byte. -/
def encodeAsciiReplace (cs : List Char) : List Nat :=
  cs.map fun c => if c.toNat < 128 then c.toNat else 63

/-- Substring test, Python needle in hay. -/
def hasSub (needle : List Char) : List Char → Bool
  | [] => needle.isEmpty
  | c :: rest => needle.isPrefixOf (c :: rest) || hasSub needle rest

/-- ParsedData from src/core/data_parser.py: all parsed output from one
chunk of raw serial data. -/
structure ParsedData where
  samples : List ℚ
  ack_lines : List (Bool × List Char × List Char)
  errors : List (List Char)
  timestamps : List (Nat × Nat)
  end_of_acquisition : Bool
  overcurrent : Bool
  raw_lines : List (List Char)
deriving DecidableEq

/-- The freshly constructed ParsedData with every field at its default. -/
def ParsedData.empty : ParsedData :=
  ⟨[], [], [], [], false, false, []⟩

/-!
## BinaryParser (src/core/data_parser.py lines 150-268)
-/

/-- Decoding of a regular 2-byte measurement sample, data_parser.py lines
203-209: neg_pow is the high nibble of byte 1, the 12-bit magnitude is the
low nibble of byte 1 followed by byte 2; a positive neg_pow divides by
16 to that power, a zero neg_pow leaves the raw magnitude. -/
def sampleVal (b1 b2 : Nat) : ℚ :=
  let neg_pow := (b1 >>> 4) &&& 0x0F
  let value_int := ((b1 &&& 0x0F) <<< 8) ||| b2
  if 0 < neg_pow then (value_int : ℚ) / (16 : ℚ) ^ neg_pow else (value_int : ℚ)

/-- Outcome of BinaryParser._parse_meta: either the frame is incomplete
(Python returns the start position unchanged), or the access buf[i+6]
raised IndexError, or the frame was handled and consumed some bytes of the
body (the 2-byte header is accounted separately by the caller). -/
inductive MetaResult
  | incomplete
  | raise
  | done (acc : ParsedData) (consumed : Nat)
deriving DecidableEq

/-- Leftmost index of an adjacent 0xFF 0xFF pair, the terminator scan of the
variable-length metadata frames (data_parser.py lines 224-225). -/
def findFFFF : List Nat → Option Nat
  | x :: y :: rest =>
      if x = 0xFF ∧ y = 0xFF then some 0
      else (findFFFF (y :: rest)).map (· + 1)
  | _ => none

/-- BinaryParser._parse_meta (data_parser.py lines 217-267), with the buffer
passed as the suffix that follows the 2-byte 0xF0/type header.  The returned
consumed count is relative to that suffix.  The length guards mirror the
Python bounds checks exactly; in the 0xF3 arm the Python guard admits a
buffer one byte too short, so the read of buf at offset 6 can raise. -/
def parseMeta (meta_type : Nat) (rest : List Nat) (acc : ParsedData) : MetaResult :=
  if meta_type = 0xF1 ∨ meta_type = 0xF2 then
    match findFFFF rest with
    | some j =>
        let msg := pyStrip (decodeAsciiReplace (rest.take j))
        .done (if meta_type = 0xF1 then { acc with errors := acc.errors ++ [msg] } else acc)
              (j + 2)
    | none => .incomplete
  else if meta_type = 0xF3 then
    match rest with
    | r0 :: r1 :: r2 :: r3 :: r4 :: r5 :: tail =>
        let time_ms := (((r0 <<< 24) ||| (r1 <<< 16) ||| (r2 <<< 8) ||| r3)) &&& 0x7FFFFFFF
        if r5 = 0xFF then
          match tail with
          | [] => .raise
          | b6 :: _ =>
              if b6 = 0xFF then
                .done { acc with timestamps := acc.timestamps ++ [(time_ms, r4)] } 7
              else .incomplete
        else .incomplete
    | _ => .incomplete
  else if meta_type = 0xF4 ∨ meta_type = 0xF5 ∨ meta_type = 0xF6 then
    match rest with
    | r0 :: r1 :: _ =>
        if r0 = 0xFF ∧ r1 = 0xFF then
          if meta_type = 0xF4 then .done { acc with end_of_acquisition := true } 2
          else if meta_type = 0xF5 then .done { acc with overcurrent := true } 2
          else .done acc 2
        else .incomplete
    | _ => .incomplete
  else if meta_type = 0xF7 then
    match rest with
    | _ :: _ :: r2 :: r3 :: _ =>
        if r2 = 0xFF ∧ r3 = 0xFF then .done acc 4 else .incomplete
    | _ => .incomplete
  else
    .done acc 0

/-- The scanning loop of BinaryParser.feed (data_parser.py lines 186-211).
The first argument is the iteration budget (see the module comment); none
models an uncaught exception escaping feed. -/
def binLoop (fuel : Nat) (buf : List Nat) (acc : ParsedData) :
    Option (ParsedData × List Nat) :=
  match buf with
  | [] => some (acc, [])
  | [b] => some (acc, [b])
  | b1 :: b2 :: rest =>
    match fuel with
    | 0 => none
    | fuel' + 1 =>
      if b1 = 0xF0 ∧ (b2 &&& 0xF0) = 0xF0 then
        match parseMeta b2 rest acc with
        | .incomplete => some (acc, b1 :: b2 :: rest)
        | .raise => none
        | .done acc' k => binLoop fuel' (rest.drop k) acc'
      else if b1 >>> 4 = 0x0F then
        binLoop fuel' (b2 :: rest) acc
      else
        binLoop fuel' rest { acc with samples := acc.samples ++ [sampleVal b1 b2] }

/-- BinaryParser.feed: extend the carry-over with the new data, scan from
position zero, and return the parsed batch together with the unconsumed
suffix that becomes the new carry-over. -/
def binFeed (data : List Nat) (buf : List Nat) : Option (ParsedData × List Nat) :=
  binLoop (buf ++ data).length (buf ++ data) ParsedData.empty

theorem binFeed_pair (b1 b2 : Nat) (h : ¬ b1 >>> 4 = 0x0F) :
    binFeed [b1, b2] [] =
      some ({ ParsedData.empty with samples := [sampleVal b1 b2] }, []) := by
  have hm : ¬ (b1 = 0xF0 ∧ (b2 &&& 0xF0) = 0xF0) := by
    rintro ⟨rfl, -⟩
    exact h (by decide)
  simp [binFeed, binLoop, hm, h, ParsedData.empty]

/-- C1: the 0xF3 bounds guard in BinaryParser._parse_meta is off by one: on
the 8-byte proper prefix of a 9-byte 0xF3 timestamp frame, feed raises
IndexError (modelled as none) instead of leaving the frame in the
carry-over.  This evaluates the code at the failing input. -/
theorem c1_incomplete_f3_raises :
    binFeed [0xF0, 0xF3, 0x00, 0x00, 0x0A, 0xBC, 0x32, 0xFF] [] = none := by
  decide

/-- C5: a 2-byte sample whose first byte has a high nibble other than 0xF
decodes to magnitude / 16 ^ negPow when negPow is positive and to the raw
magnitude when negPow is zero, with negPow the high nibble of byte 1 and
magnitude the 12-bit value built from the low nibble of byte 1 and byte 2. -/
theorem c5_binary_sample (b1 b2 : Nat) (hb1 : b1 < 256) (hb2 : b2 < 256)
    (h : ¬ b1 >>> 4 = 0x0F) :
    binFeed [b1, b2] [] =
      some ({ ParsedData.empty with samples :=
        [ if 0 < (b1 >>> 4) &&& 0x0F then
            ((((b1 &&& 0x0F) <<< 8) ||| b2 : Nat) : ℚ) / (16 : ℚ) ^ ((b1 >>> 4) &&& 0x0F)
          else ((((b1 &&& 0x0F) <<< 8) ||| b2 : Nat) : ℚ) ] }, []) := by
  rw [binFeed_pair b1 b2 h]
  rfl

/-- C5 witness: feeding the bytes 0x00 0x05 yields exactly one sample of
value 5 through the negPow = 0 path. -/
theorem c5_binary_sample_witness :
    ((0 : Nat) < 256 ∧ (5 : Nat) < 256 ∧ ¬ (0 : Nat) >>> 4 = 0x0F) ∧
      binFeed [0x00, 0x05] [] =
        some ({ ParsedData.empty with samples := [(5 : ℚ)] }, []) :=
  ⟨by decide, (c5_binary_sample 0 5 (by decide) (by decide) (by decide)).trans (by decide)⟩

/-- C10: a leading byte with high nibble 0xF that does not open a recognized
metadata header (a 0xF0 followed by a byte with high nibble 0xF) is dropped
from the stream one byte at a time, producing no event: the feed result is
the same as if the stray byte were absent. -/
theorem c10_stray_byte (b1 b2 : Nat) (rest : List Nat)
    (h1 : b1 >>> 4 = 0x0F) (h2 : ¬ (b1 = 0xF0 ∧ (b2 &&& 0xF0) = 0xF0)) :
    binFeed (b1 :: b2 :: rest) [] = binFeed (b2 :: rest) [] := by
  simp [binFeed, binLoop, h1, h2]

/-- C10 witness: feeding 0xF5 0x12 yields an empty batch and leaves only
0x12 in the carry-over. -/
theorem c10_stray_byte_witness :
    ((0xF5 : Nat) >>> 4 = 0x0F ∧ ¬ ((0xF5 : Nat) = 0xF0 ∧ ((0x12 : Nat) &&& 0xF0) = 0xF0)) ∧
      binFeed [0xF5, 0x12] [] = some (ParsedData.empty, [0x12]) :=
  ⟨by decide,
   (c10_stray_byte 0xF5 0x12 [] (by decide) (by decide)).trans (by decide)⟩

/-- C3: a well-formed 2-byte sample split at any byte boundary across two
feed calls yields in total exactly the same single decoded sample as feeding
both bytes at once, with an empty final carry-over (no loss, no duplication). -/
theorem c3_split_feed (b1 b2 k : Nat) (hb1 : b1 < 256) (hb2 : b2 < 256)
    (h : ¬ b1 >>> 4 = 0x0F) :
    ((binFeed ([b1, b2].take k) []).bind fun p =>
        (binFeed ([b1, b2].drop k) p.2).map fun q =>
          (p.1.samples ++ q.1.samples, q.2)) = some ([sampleVal b1 b2], [])
    ∧ (binFeed [b1, b2] []).map (fun p => (p.1.samples, p.2)) =
        some ([sampleVal b1 b2], []) := by
  have hpair := binFeed_pair b1 b2 h
  have h0 : binFeed [] [] = some (ParsedData.empty, []) := by decide
  refine ⟨?_, by rw [hpair]; rfl⟩
  match k with
  | 0 =>
      simp [h0, hpair, ParsedData.empty]
  | 1 =>
      have ha : binFeed [b1] [] = some (ParsedData.empty, [b1]) := by
        simp [binFeed, binLoop]
      have hb : binFeed [b2] [b1] =
          some ({ ParsedData.empty with samples := [sampleVal b1 b2] }, []) := hpair
      simp [ha, hb, ParsedData.empty]
  | n + 2 =>
      simp [hpair, h0, ParsedData.empty]

/-- C3 witness: the split after the first byte of the sample 0x23 0x45
reassembles to the same single sample as the unsplit feed. -/
theorem c3_split_feed_witness :
    ((0x23 : Nat) < 256 ∧ (0x45 : Nat) < 256 ∧ ¬ (0x23 : Nat) >>> 4 = 0x0F) ∧
      (((binFeed ([0x23, 0x45].take 1) []).bind fun p =>
          (binFeed ([0x23, 0x45].drop 1) p.2).map fun q =>
            (p.1.samples ++ q.1.samples, q.2)) = some ([sampleVal 0x23 0x45], [])
       ∧ (binFeed [0x23, 0x45] []).map (fun p => (p.1.samples, p.2)) =
          some ([sampleVal 0x23 0x45], [])) :=
  ⟨by decide, c3_split_feed 0x23 0x45 1 (by decide) (by decide) (by decide)⟩

/-- C8: a complete 9-byte 0xF3 timestamp frame decodes to exactly one
timestamp record whose time is the 4-byte big-endian value with bit 31
masked off and whose buffer percent is the fifth body byte; nothing is left
in the carry-over and no sample is produced. -/
theorem c8_timestamp_frame (m0 m1 m2 m3 pct : Nat)
    (h0 : m0 < 256) (h1 : m1 < 256) (h2 : m2 < 256) (h3 : m3 < 256) (hp : pct < 256) :
    binFeed [0xF0, 0xF3, m0, m1, m2, m3, pct, 0xFF, 0xFF] [] =
      some ({ ParsedData.empty with timestamps :=
        [((((m0 <<< 24) ||| (m1 <<< 16) ||| (m2 <<< 8) ||| m3)) &&& 0x7FFFFFFF, pct)] },
        []) := by
  have hc : ((0xF0 : Nat) = 0xF0 ∧ ((0xF3 : Nat) &&& 0xF0) = 0xF0) := by decide
  have hm1 : ¬ ((0xF3 : Nat) = 0xF1 ∨ (0xF3 : Nat) = 0xF2) := by decide
  simp [binFeed, binLoop, parseMeta, hc, hm1, ParsedData.empty]

/-- C8 witness: the concrete frame F0 F3 00 00 0A BC 32 FF FF yields the
single record (2748, 50). -/
theorem c8_timestamp_frame_witness :
    ((0 : Nat) < 256 ∧ (0 : Nat) < 256 ∧ (0x0A : Nat) < 256 ∧ (0xBC : Nat) < 256 ∧
      (50 : Nat) < 256) ∧
      binFeed [0xF0, 0xF3, 0x00, 0x00, 0x0A, 0xBC, 50, 0xFF, 0xFF] [] =
        some ({ ParsedData.empty with timestamps := [(2748, 50)] }, []) :=
  ⟨by decide,
   (c8_timestamp_frame 0 0 0x0A 0xBC 50 (by decide) (by decide) (by decide)
      (by decide) (by decide)).trans (by decide)⟩

/-!
## AsciiParser (src/core/data_parser.py lines 50-143)
-/

/-- Digit run of a Python int literal body: digits with single underscores
allowed only between digits. -/
def pyDigitsGo (acc : Nat) : List Char → Option Nat
  | [] => some acc
  | c :: rest =>
    if pyIsDigit c then pyDigitsGo (acc * 10 + (c.toNat - 48)) rest
    else if c = '_' then
      match rest with
      | c2 :: rest2 =>
          if pyIsDigit c2 then pyDigitsGo (acc * 10 + (c2.toNat - 48)) rest2 else none
      | [] => none
    else none

/-- Nonempty digit run starting a Python int literal body. -/
def pyDigitsU0 : List Char → Option Nat
  | [] => none
  | c :: rest => if pyIsDigit c then pyDigitsGo (c.toNat - 48) rest else none

/-- Python int applied to a string: strip whitespace, optional single sign,
then a digit run; any failure raises ValueError, modelled as none. -/
def pyInt (cs : List Char) : Option ℤ :=
  match pyStrip cs with
  | [] => none
  | c :: rest =>
    if c = '-' then (pyDigitsU0 rest).map (fun n => -(n : ℤ))
    else if c = '+' then (pyDigitsU0 rest).map (fun n => (n : ℤ))
    else (pyDigitsU0 (c :: rest)).map (fun n => (n : ℤ))

/-- Value of a digit string read in base 10. -/
def digitsToNat (cs : List Char) : Nat :=
  cs.foldl (fun a c => a * 10 + (c.toNat - 48)) 0

/-- AsciiParser._parse_sample (data_parser.py lines 115-126): a line of at
least 7 characters parses as mantissa digits 0-3, sign character 4 (minus
means negative exponent), exponent digits 5-6; parse failures yield none. -/
def parseSample (line : List Char) : Option ℚ :=
  if line.length < 7 then none
  else
    match pyInt (line.take 4), pyInt ((line.drop 5).take 2) with
    | some m, some e =>
        let sign : ℤ := if line.getD 4 ' ' = '-' then -1 else 1
        some ((m : ℚ) * (10 : ℚ) ^ (sign * e))
    | _, _ => none

/-- Match of the regex (\d+)\s*s\b at the start of the text: a maximal digit
run, optional whitespace, the letter s, then a word boundary. -/
def matchSecsAt (cs : List Char) : Option Nat :=
  let ds := cs.takeWhile pyIsDigit
  if ds.isEmpty then none
  else
    match (cs.dropWhile pyIsDigit).dropWhile isPyWs with
    | 's' :: rest =>
        match rest with
        | [] => some (digitsToNat ds)
        | c :: _ => if isWordChar c then none else some (digitsToNat ds)
    | _ => none

/-- re.search for (\d+)\s*s\b: leftmost position admitting a match. -/
def searchSecs : List Char → Option Nat
  | [] => none
  | c :: rest =>
    match matchSecsAt (c :: rest) with
    | some n => some n
    | none => searchSecs rest

/-- Match of the regex (\d+)\s*ms at the start of the text. -/
def matchMsAt (cs : List Char) : Option Nat :=
  let ds := cs.takeWhile pyIsDigit
  if ds.isEmpty then none
  else
    match (cs.dropWhile pyIsDigit).dropWhile isPyWs with
    | 'm' :: 's' :: _ => some (digitsToNat ds)
    | _ => none

/-- re.search for (\d+)\s*ms: leftmost position admitting a match. -/
def searchMs : List Char → Option Nat
  | [] => none
  | c :: rest =>
    match matchMsAt (c :: rest) with
    | some n => some n
    | none => searchMs rest

/-- Match of the regex (\d+)\s*% at the start of the text. -/
def matchPctAt (cs : List Char) : Option Nat :=
  let ds := cs.takeWhile pyIsDigit
  if ds.isEmpty then none
  else
    match (cs.dropWhile pyIsDigit).dropWhile isPyWs with
    | '%' :: _ => some (digitsToNat ds)
    | _ => none

/-- re.search for (\d+)\s*%: leftmost position admitting a match. -/
def searchPct : List Char → Option Nat
  | [] => none
  | c :: rest =>
    match matchPctAt (c :: rest) with
    | some n => some n
    | none => searchPct rest

/-- AsciiParser._parse_timestamp (data_parser.py lines 128-143): seconds
token times 1000 plus milliseconds token, each 0 when absent, and the digits
before a percent sign, 0 when absent. -/
def parseTimestamp (line : List Char) : Nat × Nat :=
  (1000 * (searchSecs line).getD 0 + (searchMs line).getD 0,
   (searchPct line).getD 0)

/-- AsciiParser._dispatch (data_parser.py lines 83-112): classify one
complete line, first match wins.  The caller never passes an empty line. -/
def dispatch (line : List Char) (result : ParsedData) : ParsedData :=
  match line with
  | [] => result
  | ch :: _ =>
    if pyIsDigit ch then
      match parseSample line with
      | some val => { result with samples := result.samples ++ [val] }
      | none => result
    else if "ack ".toList.isPrefixOf line then
      let parts := pyStrip (line.drop 4)
      let cmd := parts.takeWhile (fun c => !isPyWs c)
      let data := (parts.dropWhile (fun c => !isPyWs c)).dropWhile isPyWs
      { result with ack_lines := result.ack_lines ++ [(true, cmd, data)] }
    else if "err ".toList.isPrefixOf line then
      { result with ack_lines := result.ack_lines ++ [(false, pyStrip (line.drop 4), [])] }
    else if line = "end".toList then
      { result with end_of_acquisition := true }
    else if "error".toList.isPrefixOf line then
      { result with errors := result.errors ++ [pyStrip (line.drop 5)] }
    else if hasSub "Timestamp".toList line || hasSub "timestamp".toList line then
      { result with timestamps := result.timestamps ++ [parseTimestamp line] }
    else
      result

/-- Split the buffer at its first newline: the line before it and the text
after it, or none when the buffer holds no newline. -/
def breakNL : List Char → Option (List Char × List Char)
  | [] => none
  | c :: rest =>
    if c = '\n' then some ([], rest)
    else (breakNL rest).map (fun p => (c :: p.1, p.2))

/-- Python line.rstrip over a single carriage-return argument: drop every
trailing carriage return. -/
def rstripCR (cs : List Char) : List Char :=
  (cs.reverse.dropWhile (fun c => c = '\r')).reverse

/-- The line loop of AsciiParser.feed (data_parser.py lines 72-78): extract
newline-terminated lines, strip trailing carriage returns, skip empty lines,
log every kept line, and dispatch it.  First argument is the iteration
budget (see the module comment). -/
def asciiLoop (fuel : Nat) (buf : List Char) (acc : ParsedData) :
    ParsedData × List Char :=
  match breakNL buf with
  | none => (acc, buf)
  | some (line0, rest) =>
    match fuel with
    | 0 => (acc, buf)
    | fuel' + 1 =>
      let line := rstripCR line0
      if line.isEmpty then asciiLoop fuel' rest acc
      else asciiLoop fuel' rest
             (dispatch line { acc with raw_lines := acc.raw_lines ++ [line] })

/-- AsciiParser.feed: append the text to the carry-over, consume every
complete line, and return the batch with the new carry-over. -/
def asciiFeed (text : List Char) (buf : List Char) : ParsedData × List Char :=
  asciiLoop (buf ++ text).length (buf ++ text) ParsedData.empty

theorem pyIsDigit_not_ws {c : Char} (h : pyIsDigit c = true) : isPyWs c = false := by
  simp only [pyIsDigit, decide_eq_true_eq] at h
  simp only [isPyWs, decide_eq_false_iff_not]
  omega

theorem pyIsDigit_ne_minus {c : Char} (h : pyIsDigit c = true) : ¬ c = '-' := by
  simp only [pyIsDigit, decide_eq_true_eq] at h
  intro he
  subst he
  simp at h

theorem pyIsDigit_ne_plus {c : Char} (h : pyIsDigit c = true) : ¬ c = '+' := by
  simp only [pyIsDigit, decide_eq_true_eq] at h
  intro he
  subst he
  simp at h

theorem dropWhile_isPyWs_of_digits (cs : List Char)
    (h : ∀ c ∈ cs, pyIsDigit c = true) : cs.dropWhile isPyWs = cs := by
  match cs with
  | [] => rfl
  | c :: rest =>
      have hc := pyIsDigit_not_ws (h c (List.mem_cons_self c rest))
      simp [List.dropWhile_cons, hc]

theorem pyStrip_of_digits (cs : List Char)
    (h : ∀ c ∈ cs, pyIsDigit c = true) : pyStrip cs = cs := by
  have h1 : cs.dropWhile isPyWs = cs := dropWhile_isPyWs_of_digits cs h
  have h2 : cs.reverse.dropWhile isPyWs = cs.reverse := by
    refine dropWhile_isPyWs_of_digits cs.reverse fun c hc => ?_
    exact h c (List.mem_reverse.mp hc)
  simp [pyStrip, h1, h2]

theorem pyDigitsGo_of_digits (cs : List Char) (acc : Nat)
    (h : ∀ c ∈ cs, pyIsDigit c = true) :
    pyDigitsGo acc cs = some (cs.foldl (fun a c => a * 10 + (c.toNat - 48)) acc) := by
  induction cs generalizing acc with
  | nil => simp [pyDigitsGo]
  | cons c rest ih =>
      have hc := h c (List.mem_cons_self c rest)
      rw [pyDigitsGo.eq_def]
      simp only [hc, if_true, List.foldl_cons]
      exact ih _ fun d hd => h d (List.mem_cons_of_mem c hd)

theorem pyInt_of_digits (cs : List Char) (hne : cs ≠ [])
    (h : ∀ c ∈ cs, pyIsDigit c = true) :
    pyInt cs = some ((digitsToNat cs : Nat) : ℤ) := by
  match cs with
  | c :: rest =>
      have hc := h c (List.mem_cons_self c rest)
      rw [pyInt, pyStrip_of_digits _ h]
      simp only [pyIsDigit_ne_minus hc, pyIsDigit_ne_plus hc, if_false]
      rw [pyDigitsU0]
      simp only [hc, if_true]
      rw [pyDigitsGo_of_digits rest _ fun d hd => h d (List.mem_cons_of_mem c hd)]
      simp [digitsToNat]

/-- C4: an ASCII line of at least 7 characters that starts with four decimal
digits, has any sign character at position 4 (minus meaning a negative
exponent) and two decimal digits at positions 5 and 6, dispatches to exactly
one sample of value mantissa times 10 to the signed exponent. -/
theorem c4_ascii_sample (d0 d1 d2 d3 sc e0 e1 : Char) (tail : List Char)
    (pd : ParsedData)
    (h0 : pyIsDigit d0 = true) (h1 : pyIsDigit d1 = true)
    (h2 : pyIsDigit d2 = true) (h3 : pyIsDigit d3 = true)
    (h5 : pyIsDigit e0 = true) (h6 : pyIsDigit e1 = true) :
    dispatch (d0 :: d1 :: d2 :: d3 :: sc :: e0 :: e1 :: tail) pd =
      { pd with samples := pd.samples ++
        [ ((1000 * (d0.toNat - 48) + 100 * (d1.toNat - 48) +
            10 * (d2.toNat - 48) + (d3.toNat - 48) : Nat) : ℚ) *
          (10 : ℚ) ^ ((if sc = '-' then (-1 : ℤ) else 1) *
            ((10 * (e0.toNat - 48) + (e1.toNat - 48) : Nat) : ℤ)) ] } := by
  have hm : pyInt [d0, d1, d2, d3] = some ((digitsToNat [d0, d1, d2, d3] : Nat) : ℤ) := by
    refine pyInt_of_digits _ (by simp) ?_
    intro c hc
    simp only [List.mem_cons, List.not_mem_nil, or_false] at hc
    rcases hc with rfl | rfl | rfl | rfl <;> assumption
  have he : pyInt [e0, e1] = some ((digitsToNat [e0, e1] : Nat) : ℤ) := by
    refine pyInt_of_digits _ (by simp) ?_
    intro c hc
    simp only [List.mem_cons, List.not_mem_nil, or_false] at hc
    rcases hc with rfl | rfl <;> assumption
  have hlen : ¬ (d0 :: d1 :: d2 :: d3 :: sc :: e0 :: e1 :: tail).length < 7 := by
    simp [List.length_cons]
  have hsample :
      parseSample (d0 :: d1 :: d2 :: d3 :: sc :: e0 :: e1 :: tail) =
        some (((digitsToNat [d0, d1, d2, d3] : Nat) : ℚ) *
          (10 : ℚ) ^ ((if sc = '-' then (-1 : ℤ) else 1) *
            ((digitsToNat [e0, e1] : Nat) : ℤ))) := by
    rw [parseSample, if_neg hlen]
    have ht4 : (d0 :: d1 :: d2 :: d3 :: sc :: e0 :: e1 :: tail).take 4 =
        [d0, d1, d2, d3] := rfl
    have ht2 : ((d0 :: d1 :: d2 :: d3 :: sc :: e0 :: e1 :: tail).drop 5).take 2 =
        [e0, e1] := rfl
    rw [ht4, ht2, hm, he]
    rfl
  rw [dispatch, hsample]
  have hd : digitsToNat [d0, d1, d2, d3] =
      1000 * (d0.toNat - 48) + 100 * (d1.toNat - 48) +
        10 * (d2.toNat - 48) + (d3.toNat - 48) := by
    simp only [digitsToNat, List.foldl_cons, List.foldl_nil]
    ring
  have hexp : digitsToNat [e0, e1] = 10 * (e0.toNat - 48) + (e1.toNat - 48) := by
    simp only [digitsToNat, List.foldl_cons, List.foldl_nil]
    ring
  rw [hd, hexp] at *
  simp [h0]

/-- C4 witness: the line 6409-07 dispatches to the single sample
6409 times 10 to the minus 7. -/
theorem c4_ascii_sample_witness :
    (pyIsDigit '6' = true ∧ pyIsDigit '4' = true ∧ pyIsDigit '0' = true ∧
     pyIsDigit '9' = true ∧ pyIsDigit '0' = true ∧ pyIsDigit '7' = true) ∧
      dispatch "6409-07".toList ParsedData.empty =
        { ParsedData.empty with samples := [(6409 : ℚ) * (10 : ℚ) ^ (-7 : ℤ)] } :=
  ⟨by decide,
   (c4_ascii_sample '6' '4' '0' '9' '-' '0' '7' [] ParsedData.empty
      (by decide) (by decide) (by decide) (by decide) (by decide) (by decide)).trans
     (by
        have hm : (1000 * ('6'.toNat - 48) + 100 * ('4'.toNat - 48) +
            10 * ('0'.toNat - 48) + ('9'.toNat - 48) : Nat) = 6409 := by decide
        have hz : (10 * ('0'.toNat - 48) + ('7'.toNat - 48) : Nat) = 7 := by decide
        rw [hm, hz]
        norm_num [ParsedData.empty])⟩

/-- Case-insensitive containment of the word Timestamp, the trigger the
claim describes: the line, lowercased, contains the substring timestamp. -/
def containsTimestampCI (line : List Char) : Bool :=
  hasSub "timestamp".toList (line.map Char.toLower)

/-- C7 counterexample: the line TIMESTAMP 1s 2ms 3% contains the word
Timestamp case-insensitively and matches no earlier classification rule,
yet dispatch yields no timestamp record at all, because the code tests only
the two exact spellings Timestamp and timestamp. -/
theorem c7_counterexample :
    containsTimestampCI "TIMESTAMP 1s 2ms 3%".toList = true ∧
    pyIsDigit 'T' = false ∧
    "ack ".toList.isPrefixOf "TIMESTAMP 1s 2ms 3%".toList = false ∧
    "err ".toList.isPrefixOf "TIMESTAMP 1s 2ms 3%".toList = false ∧
    "TIMESTAMP 1s 2ms 3%".toList ≠ "end".toList ∧
    "error".toList.isPrefixOf "TIMESTAMP 1s 2ms 3%".toList = false ∧
    dispatch "TIMESTAMP 1s 2ms 3%".toList ParsedData.empty = ParsedData.empty := by
  decide

/-- C7 amended: a complete non-empty line that contains the exact substring
Timestamp or timestamp (the match is case-sensitive on those two spellings,
not fully case-insensitive) and matches no earlier classification rule
yields exactly one timestamp record, whose elapsed milliseconds are the
seconds token times 1000 plus the milliseconds token (a missing token
contributing 0) and whose buffer percent is the digits before a percent
sign, 0 when absent. -/
theorem c7_timestamp_amended (ch : Char) (rest : List Char) (pd : ParsedData)
    (hd : pyIsDigit ch = false)
    (hack : "ack ".toList.isPrefixOf (ch :: rest) = false)
    (herr : "err ".toList.isPrefixOf (ch :: rest) = false)
    (hend : (ch :: rest) ≠ "end".toList)
    (herror : "error".toList.isPrefixOf (ch :: rest) = false)
    (hts : (hasSub "Timestamp".toList (ch :: rest) ||
            hasSub "timestamp".toList (ch :: rest)) = true) :
    dispatch (ch :: rest) pd =
      { pd with timestamps := pd.timestamps ++
        [(1000 * (searchSecs (ch :: rest)).getD 0 + (searchMs (ch :: rest)).getD 0,
          (searchPct (ch :: rest)).getD 0)] } := by
  rw [dispatch]
  simp only [hd, hack, herr, herror, hts, Bool.false_eq_true, if_false, if_true,
    if_neg hend]
  rfl

/-- C7 amended witness: the line Timestamp: 1s 2ms 3% yields the single
record (1002, 3). -/
theorem c7_timestamp_amended_witness :
    (pyIsDigit 'T' = false ∧
     "ack ".toList.isPrefixOf "Timestamp: 1s 2ms 3%".toList = false ∧
     "err ".toList.isPrefixOf "Timestamp: 1s 2ms 3%".toList = false ∧
     "Timestamp: 1s 2ms 3%".toList ≠ "end".toList ∧
     "error".toList.isPrefixOf "Timestamp: 1s 2ms 3%".toList = false ∧
     (hasSub "Timestamp".toList "Timestamp: 1s 2ms 3%".toList ||
      hasSub "timestamp".toList "Timestamp: 1s 2ms 3%".toList) = true) ∧
      dispatch "Timestamp: 1s 2ms 3%".toList ParsedData.empty =
        { ParsedData.empty with timestamps := [(1002, 3)] } :=
  ⟨by decide,
   (c7_timestamp_amended 'T' "imestamp: 1s 2ms 3%".toList ParsedData.empty
      (by decide) (by decide) (by decide) (by decide) (by decide) (by decide)).trans
     (by decide)⟩

/-!
## Commands (src/core/protocol.py)
-/

/-- Python round on a real value: round half to even, as on floats. -/
def pyRound (q : ℚ) : ℤ :=
  let f := ⌊q⌋
  let r := q - (f : ℚ)
  if r < 1/2 then f
  else if 1/2 < r then f + 1
  else if f % 2 = 0 then f else f + 1

/-- Python int on a real value: truncation toward zero. -/
def pyTrunc (q : ℚ) : ℤ :=
  if 0 ≤ q then ⌊q⌋ else ⌈q⌉

namespace Commands

/-- Commands._enc: append a newline (the ascii encoding is the identity on
the command strings the encoder builds). -/
def enc (s : String) : String := s ++ "\n"

/-- Commands.acqtime (protocol.py lines 85-93): nonpositive times encode the
power-down sentinel 0; otherwise milliseconds rounded to the nearest integer
with an m suffix when below 1000, else whole truncated seconds. -/
def acqtime (seconds : ℚ) : String :=
  if seconds ≤ 0 then enc "acqtime 0"
  else
    let ms := pyRound (seconds * 1000)
    if ms < 1000 then enc ("acqtime " ++ toString ms ++ "m")
    else enc ("acqtime " ++ toString (pyTrunc seconds))

end Commands

/-- C9: every acquisition time in the interval from 0.9995 up to but
excluding 1 is strictly positive yet encodes to the power-down sentinel
acqtime 0: the rounded millisecond count reaches 1000, so the whole-seconds
branch truncates the time to zero. -/
theorem c9_acqtime_zero (s : ℚ) (hlo : (9995 : ℚ)/10000 ≤ s) (hhi : s < 1) :
    0 < s ∧ Commands.acqtime s = "acqtime 0\n" := by
  have hpos : 0 < s := lt_of_lt_of_le (by norm_num) hlo
  refine ⟨hpos, ?_⟩
  have hne : ¬ s ≤ 0 := not_le.mpr hpos
  have hfloor : ⌊s * 1000⌋ = 999 := by
    rw [Int.floor_eq_iff]
    constructor
    · push_cast
      linarith
    · push_cast
      linarith
  have hms : pyRound (s * 1000) = 1000 := by
    rw [pyRound]
    simp only [hfloor]
    have hge : (1 : ℚ)/2 ≤ s * 1000 - (999 : ℤ) := by
      push_cast
      linarith
    rw [if_neg (not_lt.mpr hge)]
    by_cases hgt : (1 : ℚ)/2 < s * 1000 - (999 : ℤ)
    · rw [if_pos hgt]
      norm_num
    · rw [if_neg hgt]
      norm_num
  have htr : pyTrunc s = 0 := by
    rw [pyTrunc, if_pos hpos.le]
    rw [Int.floor_eq_iff]
    constructor
    · push_cast
      linarith
    · push_cast
      linarith
  rw [Commands.acqtime, if_neg hne]
  simp only [hms, htr]
  norm_num
  rfl

/-- C9 witness: the boundary time 0.9995 seconds is strictly positive and
encodes to acqtime 0. -/
theorem c9_acqtime_zero_witness :
    ((9995 : ℚ)/10000 ≤ (9995 : ℚ)/10000 ∧ (9995 : ℚ)/10000 < 1) ∧
      (0 < (9995 : ℚ)/10000 ∧ Commands.acqtime ((9995 : ℚ)/10000) = "acqtime 0\n") :=
  ⟨⟨le_refl _, by norm_num⟩, c9_acqtime_zero ((9995 : ℚ)/10000) (le_refl _) (by norm_num)⟩

/-!
## SerialWorker (src/core/serial_worker.py)
-/

/-- Qt signal emissions of the worker, in emission order. -/
inductive Event
  | conn_changed (connected : Bool) (msg : List Char)
  | log (msg : List Char)
  | cmd_result (success : Bool) (cmd payload : List Char)
  | data_ready (d : ParsedData)
  | acq_changed (started : Bool)
deriving DecidableEq

/-- Mutable state of SerialWorker: the keep-running flag, the state string
(idle, ready or acquiring), the selected data format string, the carry-over
of each parser, the command FIFO of (wire bytes, name) pairs, the response
text buffer, the pending command name, and the serial handle modelled by a
presence flag and an is-open flag. -/
structure WorkerState where
  keep_running : Bool
  state : List Char
  data_format : List Char
  ascii_buf : List Char
  bin_buf : List Nat
  cmd_queue : List (List Nat × List Char)
  resp_buf : List Char
  pending_cmd_name : List Char
  serial_present : Bool
  serial_open : Bool
deriving DecidableEq

/-- Outcome the transport gives a write attempt: success, or a
SerialException with a message. -/
inductive WriteOutcome
  | ok
  | err (msg : List Char)
deriving DecidableEq

/-- Outcome the transport gives the read section: a SerialException with a
message, or the bytes available (an empty list when nothing is waiting). -/
inductive ReadOutcome
  | err (msg : List Char)
  | data (raw : List Nat)
deriving DecidableEq

/-- Result of one iteration of the main loop: continue looping, or leave
the loop (a read error broke out of it). -/
inductive IterResult
  | cont (s : WorkerState) (evs : List Event)
  | exitLoop (s : WorkerState) (evs : List Event)
deriving DecidableEq

/-- SerialWorker._handle_acquisition_data (serial_worker.py lines 300-334):
feed the parser selected by the format, log embedded ack and err lines and
stream errors, publish the batch when it carries anything, report embedded
command acks, and on end of acquisition return to ready with a cleared
response buffer; none models the parser raising. -/
def handleAcquisitionData (s : WorkerState) (raw : List Nat) (fmt : List Char) :
    Option (WorkerState × List Event) :=
  let fed : Option (ParsedData × WorkerState) :=
    if fmt = "ascii_dec".toList then
      let p := asciiFeed (decodeAsciiReplace raw) s.ascii_buf
      some (p.1, { s with ascii_buf := p.2 })
    else
      (binFeed raw s.bin_buf).map fun p => (p.1, { s with bin_buf := p.2 })
  match fed with
  | none => none
  | some (result, s1) =>
    let evs1 := (result.raw_lines.filter fun l =>
        "ack ".toList.isPrefixOf l || "err ".toList.isPrefixOf l).map
        fun l => Event.log ("<< ".toList ++ l)
    let evs2 := result.errors.map fun e => Event.log ("[Stream error] ".toList ++ e)
    let evs3 := if result.samples.isEmpty && result.timestamps.isEmpty &&
        result.errors.isEmpty && !result.end_of_acquisition && !result.overcurrent
      then [] else [Event.data_ready result]
    let evs4 := result.ack_lines.map fun t => Event.cmd_result t.1 t.2.1 t.2.2
    let stepEoa : WorkerState × List Event :=
      if result.end_of_acquisition then
        ({ s1 with state := "ready".toList, resp_buf := [] },
         [Event.acq_changed false, Event.log ("[Acquisition ended]".toList)])
      else (s1, [])
    let evs6 := if result.overcurrent then
        [Event.log ("[WARNING] Overcurrent detected!".toList)] else []
    some (stepEoa.1, evs1 ++ evs2 ++ evs3 ++ evs4 ++ stepEoa.2 ++ evs6)

/-- The line loop of SerialWorker._handle_command_response (serial_worker.py
lines 256-298): split complete lines off the response buffer, log them,
strip the device prompt, report ack and err and error lines, and on an
acknowledged start command switch to acquiring, reset both parsers, and
re-route any leftover buffered text through the acquisition path.  First
argument is the iteration budget (see the module comment). -/
def respLoop (fuel : Nat) (s : WorkerState) : Option (WorkerState × List Event) :=
  match breakNL s.resp_buf with
  | none => some (s, [])
  | some (line0, rest) =>
    match fuel with
    | 0 => none
    | fuel' + 1 =>
      let line := rstripCR line0
      let s1 : WorkerState := { s with resp_buf := rest }
      if line.isEmpty then respLoop fuel' s1
      else
        let logEv := Event.log ("<< ".toList ++ line)
        let cmd_line := if "PowerShield > ".toList.isPrefixOf line
                        then line.drop 14 else line
        if "ack ".toList.isPrefixOf cmd_line then
          let parts := pyStrip (cmd_line.drop 4)
          let cmd := parts.takeWhile fun c => !isPyWs c
          let payload := (parts.dropWhile fun c => !isPyWs c).dropWhile isPyWs
          let resEv := Event.cmd_result true cmd payload
          if cmd = "start".toList then
            let fmt := s1.data_format
            let s2 : WorkerState :=
              { s1 with state := "acquiring".toList, ascii_buf := [], bin_buf := [] }
            let evs := [logEv, resEv, Event.acq_changed true,
                        Event.log ("[Acquisition started]".toList)]
            if s2.resp_buf.isEmpty then some (s2, evs)
            else
              let leftover := encodeAsciiReplace s2.resp_buf
              (handleAcquisitionData { s2 with resp_buf := [] } leftover fmt).map
                fun p => (p.1, evs ++ p.2)
          else
            (respLoop fuel' s1).map fun p => (p.1, [logEv, resEv] ++ p.2)
        else if "err ".toList.isPrefixOf cmd_line then
          let payload := pyStrip (cmd_line.drop 4)
          (respLoop fuel' s1).map fun p =>
            (p.1, [logEv, Event.cmd_result false [] payload] ++ p.2)
        else if "error ".toList.isPrefixOf cmd_line then
          let parts := pyStrip (cmd_line.drop 6)
          let cmd := parts.takeWhile fun c => !isPyWs c
          let payload := (parts.dropWhile fun c => !isPyWs c).dropWhile isPyWs
          (respLoop fuel' s1).map fun p =>
            (p.1, [logEv, Event.cmd_result false cmd payload] ++ p.2)
        else
          (respLoop fuel' s1).map fun p => (p.1, [logEv] ++ p.2)

/-- SerialWorker._handle_command_response (serial_worker.py lines 251-298):
decode the bytes, append them to the response buffer, and run the line
loop. -/
def handleCommandResponse (s : WorkerState) (raw : List Nat) :
    Option (WorkerState × List Event) :=
  let s1 : WorkerState := { s with resp_buf := s.resp_buf ++ decodeAsciiReplace raw }
  respLoop s1.resp_buf.length s1

/-- The send section of one loop iteration (serial_worker.py lines 191-208):
in ready or acquiring, pop the head of the FIFO; a successful write logs the
command and records its name as pending, a SerialException logs a send
error and the loop carries on. -/
def writePhase (s : WorkerState) (w : WriteOutcome) : WorkerState × List Event :=
  if s.state = "ready".toList ∨ s.state = "acquiring".toList then
    match s.cmd_queue with
    | [] => (s, [])
    | (cb, nm) :: q =>
      if cb.isEmpty then ({ s with cmd_queue := q }, [])
      else
        match w with
        | .ok => ({ s with cmd_queue := q, pending_cmd_name := nm },
                  [Event.log (">> ".toList ++ pyStrip (decodeAsciiReplace cb))])
        | .err m => ({ s with cmd_queue := q },
                     [Event.log ("[Send error] ".toList ++ m)])
  else (s, [])

/-- One iteration of SerialWorker.run between the keep-running check and the
next one (serial_worker.py lines 187-232): a missing handle just idles; then
the send section runs; a read error logs and leaves the loop; no data idles;
otherwise the bytes go to the handler matching the current state. -/
def workerIter (s : WorkerState) (w : WriteOutcome) (r : ReadOutcome) :
    Option IterResult :=
  if s.serial_present = false then some (.cont s [])
  else
    let sw := writePhase s w
    match r with
    | .err m =>
        some (.exitLoop sw.1 (sw.2 ++ [Event.log ("[Read error] ".toList ++ m)]))
    | .data raw =>
        if raw.isEmpty then some (.cont sw.1 sw.2)
        else if sw.1.state = "ready".toList then
          (handleCommandResponse sw.1 raw).map fun p => IterResult.cont p.1 (sw.2 ++ p.2)
        else if sw.1.state = "acquiring".toList then
          (handleAcquisitionData sw.1 raw sw.1.data_format).map
            fun p => IterResult.cont p.1 (sw.2 ++ p.2)
        else some (.cont sw.1 sw.2)

/-- The cleanup section after the loop (serial_worker.py lines 234-244):
drop the handle, force the state to idle, attempt a close exactly when an
open handle was held (the Bool component), and emit the single disconnect
notification. -/
def cleanup (s : WorkerState) : WorkerState × Bool × List Event :=
  ({ s with serial_present := false, state := "idle".toList },
   s.serial_present && s.serial_open,
   [Event.conn_changed false ("Disconnected".toList)])

/-- SerialWorker.run (serial_worker.py lines 178-244) against a finite trace
of transport behaviours, one per iteration: the loop stops either through
the keep-running flag or through a read error, and then runs the cleanup
section; the Bool reports whether the loop terminated within the trace. -/
def workerRun (s : WorkerState) (inputs : List (WriteOutcome × ReadOutcome)) :
    Option (WorkerState × List Event × Bool) :=
  if s.keep_running = false then
    some ((cleanup s).1, (cleanup s).2.2, true)
  else
    match inputs with
    | [] => some (s, [], false)
    | (w, r) :: rest =>
      match workerIter s w r with
      | none => none
      | some (.exitLoop s1 evs1) =>
          some ((cleanup s1).1, evs1 ++ (cleanup s1).2.2, true)
      | some (.cont s1 evs1) =>
          (workerRun s1 rest).map fun t => (t.1, evs1 ++ t.2.1, t.2.2)

/-- Test for the disconnect notification among the emitted events. -/
def isConnEv : Event → Bool
  | .conn_changed _ _ => true
  | _ => false

theorem writePhase_preserve (s : WorkerState) (w : WriteOutcome) :
    (writePhase s w).1.serial_present = s.serial_present ∧
    (writePhase s w).1.serial_open = s.serial_open ∧
    (writePhase s w).1.state = s.state := by
  rw [writePhase]
  split
  · split
    · exact ⟨rfl, rfl, rfl⟩
    · split
      · exact ⟨rfl, rfl, rfl⟩
      · split <;> exact ⟨rfl, rfl, rfl⟩
  · exact ⟨rfl, rfl, rfl⟩

theorem writePhase_no_conn (s : WorkerState) (w : WriteOutcome) :
    ∀ e ∈ (writePhase s w).2, isConnEv e = false := by
  rw [writePhase]
  split
  · split
    · simp
    · split
      · simp
      · split <;> simp [isConnEv]
  · simp

/-- C2 amended: a transport read error in the main loop terminates it
unconditionally — the state is forced to idle, the open transport is closed,
and exactly one disconnect notification is emitted; a transport write error,
by contrast, does not terminate the loop: the failed command is dropped, a
send-error line is logged, and the iteration continues with no disconnect. -/
theorem c2_transport_error_amended :
    (∀ (s : WorkerState) (w : WriteOutcome) (msg : List Char),
        s.keep_running = true → s.serial_present = true → s.serial_open = true →
        ∃ s1 evs1,
          workerIter s w (.err msg) = some (.exitLoop s1 evs1) ∧
          workerRun s [(w, .err msg)] =
            some ((cleanup s1).1, evs1 ++ (cleanup s1).2.2, true) ∧
          (cleanup s1).1.state = "idle".toList ∧
          (cleanup s1).1.serial_present = false ∧
          (cleanup s1).2.1 = true ∧
          ((evs1 ++ (cleanup s1).2.2).filter isConnEv).length = 1)
    ∧ (∀ (s : WorkerState) (msg : List Char) (cb : List Nat) (nm : List Char)
         (q : List (List Nat × List Char)),
        s.keep_running = true → s.serial_present = true →
        s.state = "ready".toList → s.cmd_queue = (cb, nm) :: q → cb ≠ [] →
        workerIter s (.err msg) (.data []) =
          some (.cont { s with cmd_queue := q }
                 [Event.log ("[Send error] ".toList ++ msg)])) := by
  constructor
  · intro s w msg hk hp ho
    refine ⟨(writePhase s w).1,
      (writePhase s w).2 ++ [Event.log ("[Read error] ".toList ++ msg)],
      ?_, ?_, rfl, rfl, ?_, ?_⟩
    · rw [workerIter, if_neg (by simp [hp])]
    · have hiter : workerIter s w (.err msg) =
          some (.exitLoop (writePhase s w).1
            ((writePhase s w).2 ++ [Event.log ("[Read error] ".toList ++ msg)])) := by
        rw [workerIter, if_neg (by simp [hp])]
      rw [workerRun, if_neg (by simp [hk]), hiter]
    · simp [cleanup, (writePhase_preserve s w).1, (writePhase_preserve s w).2.1, hp, ho]
    · have hnil : (writePhase s w).2.filter isConnEv = [] :=
        List.filter_eq_nil_iff.mpr fun e he => by
          simp [writePhase_no_conn s w e he]
      simp [cleanup, List.filter_append, hnil, isConnEv]
  · intro s msg cb nm q hk hp hst hq hcb
    have hwp : writePhase s (.err msg) =
        ({ s with cmd_queue := q }, [Event.log ("[Send error] ".toList ++ msg)]) := by
      rw [writePhase, if_pos (Or.inl hst), hq]
      match cb, hcb with
      | c :: cb', _ => rfl
    rw [workerIter, if_neg (by simp [hp])]
    simp [hwp]

/-- A connected worker in the ready state with one queued command, used to
exhibit the write-error behaviour of the loop. -/
def readyWorker : WorkerState :=
  { keep_running := true
    state := "ready".toList
    data_format := "ascii_dec".toList
    ascii_buf := []
    bin_buf := []
    cmd_queue := [("stop\n".toList.map Char.toNat, "stop".toList)]
    resp_buf := []
    pending_cmd_name := []
    serial_present := true
    serial_open := true }

/-- C2 counterexample: a write error on a queued command does not terminate
the loop.  Running one iteration whose write raises and whose read returns
nothing leaves the loop still running (final flag false), the state still
ready, and emits only a send-error log line — no disconnect notification,
no close, no transition to idle, contradicting the claim that any transport
error terminates the loop. -/
theorem c2_write_error_counterexample :
    workerRun readyWorker [(.err "boom".toList, .data [])] =
      some ({ readyWorker with cmd_queue := [] },
        [Event.log ("[Send error] ".toList ++ "boom".toList)], false)
    ∧ ({ readyWorker with cmd_queue := [] } : WorkerState).state = "ready".toList := by
  constructor
  · rfl
  · rfl

/-- C2 witness: both halves of the amended statement applied to the
connected ready worker. -/
theorem c2_transport_error_witness :
    (readyWorker.keep_running = true ∧ readyWorker.serial_present = true ∧
     readyWorker.serial_open = true ∧ readyWorker.state = "ready".toList ∧
     readyWorker.cmd_queue = [("stop\n".toList.map Char.toNat, "stop".toList)] ∧
     ("stop\n".toList.map Char.toNat : List Nat) ≠ []) ∧
    (∃ s1 evs1,
        workerIter readyWorker .ok (.err "boom".toList) = some (.exitLoop s1 evs1) ∧
        workerRun readyWorker [(.ok, .err "boom".toList)] =
          some ((cleanup s1).1, evs1 ++ (cleanup s1).2.2, true) ∧
        (cleanup s1).1.state = "idle".toList ∧
        (cleanup s1).1.serial_present = false ∧
        (cleanup s1).2.1 = true ∧
        ((evs1 ++ (cleanup s1).2.2).filter isConnEv).length = 1) ∧
    workerIter readyWorker (.err "boom".toList) (.data []) =
      some (.cont { readyWorker with cmd_queue := [] }
             [Event.log ("[Send error] ".toList ++ "boom".toList)]) :=
  ⟨by decide,
   c2_transport_error_amended.1 readyWorker .ok ("boom".toList) rfl rfl rfl,
   c2_transport_error_amended.2 readyWorker ("boom".toList)
     ("stop\n".toList.map Char.toNat) ("stop".toList) [] rfl rfl rfl rfl (by decide)⟩

/-- C6: in the ready state, a response chunk consisting of an ack start
line followed by further bytes makes the worker transition to acquiring,
reset both decoder carry-overs to empty, clear the response buffer, and
re-route the leftover bytes (re-encoded from the text buffer) through the
acquisition handler under the currently selected format, emitting the
command result, the acquisition-started notification and then whatever the
re-routed data produces. -/
theorem c6_ack_start (s : WorkerState) (L : List Nat)
    (hst : s.state = "ready".toList) (hbuf : s.resp_buf = []) (hL : L ≠ []) :
    handleCommandResponse s ("ack start\n".toList.map Char.toNat ++ L) =
      (handleAcquisitionData
        { s with state := "acquiring".toList, ascii_buf := [], bin_buf := [],
                 resp_buf := [] }
        (encodeAsciiReplace (decodeAsciiReplace L)) s.data_format).map
        (fun p => (p.1,
          [Event.log ("<< ack start".toList),
           Event.cmd_result true ("start".toList) [],
           Event.acq_changed true,
           Event.log ("[Acquisition started]".toList)] ++ p.2)) := by
  have hdec : decodeAsciiReplace ("ack start\n".toList.map Char.toNat ++ L)
      = "ack start\n".toList ++ decodeAsciiReplace L := by
    unfold decodeAsciiReplace
    rw [List.map_append]
    congr 1
  obtain ⟨kr, st, fmt, ab, bb, q, rb, pn, sp, so⟩ := s
  replace hst : st = "ready".toList := hst
  replace hbuf : rb = [] := hbuf
  subst hst
  subst hbuf
  cases L with
  | nil => exact absurd rfl hL
  | cons c tl =>
    simp only [handleCommandResponse, hdec, List.nil_append]
    rfl

/-- A connected worker in the ready state with stale decoder carry-overs,
used to exhibit the ack-start transition. -/
def c6Worker : WorkerState :=
  { keep_running := true
    state := "ready".toList
    data_format := "ascii_dec".toList
    ascii_buf := "stale".toList
    bin_buf := [0x12]
    cmd_queue := []
    resp_buf := []
    pending_cmd_name := "start".toList
    serial_present := true
    serial_open := true }

/-- C6 witness: the ack-start transition applied to a concrete worker whose
response chunk carries two leftover bytes past the ack line. -/
theorem c6_ack_start_witness :
    (c6Worker.state = "ready".toList ∧ c6Worker.resp_buf = [] ∧
      ("5\n".toList.map Char.toNat : List Nat) ≠ []) ∧
    handleCommandResponse c6Worker
        ("ack start\n".toList.map Char.toNat ++ "5\n".toList.map Char.toNat) =
      (handleAcquisitionData
        { c6Worker with state := "acquiring".toList, ascii_buf := [], bin_buf := [],
                        resp_buf := [] }
        (encodeAsciiReplace (decodeAsciiReplace ("5\n".toList.map Char.toNat)))
        c6Worker.data_format).map
        (fun p => (p.1,
          [Event.log ("<< ack start".toList),
           Event.cmd_result true ("start".toList) [],
           Event.acq_changed true,
           Event.log ("[Acquisition started]".toList)] ++ p.2)) :=
  ⟨⟨rfl, rfl, by decide⟩,
   c6_ack_start c6Worker ("5\n".toList.map Char.toNat) rfl rfl (by decide)⟩
